import Mathlib

/-!
Shallow embedding of the file-acceptance pipeline and interaction state machine
of `src/dropzone.tsx` (a React dropzone module).  Pure functions of the source
are translated directly; browser objects (File, DataTransfer, directory
entries) become plain Lean structures, with JS `undefined`/`null` rendered as
`Option` and JS truthiness made explicit where the source relies on it.
-/

/-- A candidate file (the source's `FileWithPath` view of a browser `File`).
`type` is the reported MIME type, `""` when the browser reports none (the
source treats a missing `type` and the empty string identically, via JS
falsiness).  `size` may be absent (`isDefined` check in `fileMatchSize`).
`path` is the `path` property set by `toFileWithPath`; `webkitRelativePath`
is `""` when absent (the source checks `typeof === 'string' && length > 0`). -/
structure FileDesc where
  name : String
  type : String
  size : Option Nat
  path : Option String
  webkitRelativePath : String
deriving DecidableEq, Repr

/-- The `acceptedFiles` argument of `accepts`: in JS it is `undefined`, a
comma-separated string, or an array of strings. -/
inductive AcceptAttr where
  | undef
  | str (s : String)
  | arr (l : List String)
deriving DecidableEq, Repr

/-- JS truthiness of the `acceptedFiles` argument: `undefined` and `""` are
falsy; an array (even empty) is truthy. -/
def acceptTruthy : AcceptAttr → Bool
  | .undef => false
  | .str s => !(decide (s = ""))
  | .arr _ => true

/-- `Array.isArray(acceptedFiles) ? acceptedFiles : acceptedFiles.split(',')`. -/
def acceptList : AcceptAttr → List String
  | .undef => []
  | .str s => s.splitOn ","
  | .arr l => l

/-- `mimeType.replace(/\/.*$/, '')`: the substring before the first slash. -/
def baseOfMime (mimeType : String) : String :=
  (mimeType.splitOn "/").headD ""

/-- The source's `accepts(file, acceptedFiles)`: with a truthy accept value,
some entry must match (dot entry: case-insensitive name suffix; `x/*` entry:
primary MIME type equality; otherwise exact case-insensitive MIME equality);
with a falsy accept value every file is accepted. -/
def accepts (file : FileDesc) (acceptedFiles : AcceptAttr) : Bool :=
  if acceptTruthy acceptedFiles then
    let acceptedFilesArray := acceptList acceptedFiles
    let fileName := file.name
    let mimeType := file.type.toLower
    let baseMimeType := baseOfMime mimeType
    acceptedFilesArray.any fun ty =>
      let validType := ty.trim.toLower
      if validType.take 1 = "." then
        fileName.toLower.endsWith validType
      else if validType.endsWith "/*" then
        baseMimeType = baseOfMime validType
      else
        mimeType = validType
  else
    true

/-- The fixed extension-to-MIME lookup table `COMMON_MIME_TYPES`. -/
def COMMON_MIME_TYPES : List (String × String) := [
  ("aac", "audio/aac"),
  ("abw", "application/x-abiword"),
  ("arc", "application/x-freearc"),
  ("avif", "image/avif"),
  ("avi", "video/x-msvideo"),
  ("azw", "application/vnd.amazon.ebook"),
  ("bin", "application/octet-stream"),
  ("bmp", "image/bmp"),
  ("bz", "application/x-bzip"),
  ("bz2", "application/x-bzip2"),
  ("cda", "application/x-cdf"),
  ("csh", "application/x-csh"),
  ("css", "text/css"),
  ("csv", "text/csv"),
  ("doc", "application/msword"),
  ("docx", "application/vnd.openxmlformats-officedocument.wordprocessingml.document"),
  ("eot", "application/vnd.ms-fontobject"),
  ("epub", "application/epub+zip"),
  ("gz", "application/gzip"),
  ("gif", "image/gif"),
  ("heic", "image/heic"),
  ("heif", "image/heif"),
  ("htm", "text/html"),
  ("html", "text/html"),
  ("ico", "image/vnd.microsoft.icon"),
  ("ics", "text/calendar"),
  ("jar", "application/java-archive"),
  ("jpeg", "image/jpeg"),
  ("jpg", "image/jpeg"),
  ("js", "text/javascript"),
  ("json", "application/json"),
  ("jsonld", "application/ld+json"),
  ("mid", "audio/midi"),
  ("midi", "audio/midi"),
  ("mjs", "text/javascript"),
  ("mp3", "audio/mpeg"),
  ("mp4", "video/mp4"),
  ("mpeg", "video/mpeg"),
  ("mpkg", "application/vnd.apple.installer+xml"),
  ("odp", "application/vnd.oasis.opendocument.presentation"),
  ("ods", "application/vnd.oasis.opendocument.spreadsheet"),
  ("odt", "application/vnd.oasis.opendocument.text"),
  ("oga", "audio/ogg"),
  ("ogv", "video/ogg"),
  ("ogx", "application/ogg"),
  ("opus", "audio/opus"),
  ("otf", "font/otf"),
  ("png", "image/png"),
  ("pdf", "application/pdf"),
  ("php", "application/x-httpd-php"),
  ("ppt", "application/vnd.ms-powerpoint"),
  ("pptx", "application/vnd.openxmlformats-officedocument.presentationml.presentation"),
  ("rar", "application/vnd.rar"),
  ("rtf", "application/rtf"),
  ("sh", "application/x-sh"),
  ("svg", "image/svg+xml"),
  ("swf", "application/x-shockwave-flash"),
  ("tar", "application/x-tar"),
  ("tif", "image/tiff"),
  ("tiff", "image/tiff"),
  ("ts", "video/mp2t"),
  ("ttf", "font/ttf"),
  ("txt", "text/plain"),
  ("vsd", "application/vnd.visio"),
  ("wav", "audio/wav"),
  ("weba", "audio/webm"),
  ("webm", "video/webm"),
  ("webp", "image/webp"),
  ("woff", "font/woff"),
  ("woff2", "font/woff2"),
  ("xhtml", "application/xhtml+xml"),
  ("xls", "application/vnd.ms-excel"),
  ("xlsx", "application/vnd.openxmlformats-officedocument.spreadsheetml.sheet"),
  ("xml", "application/xml"),
  ("xul", "application/vnd.mozilla.xul+xml"),
  ("zip", "application/zip"),
  ("7z", "application/x-7z-compressed"),
  ("mkv", "video/x-matroska"),
  ("mov", "video/quicktime"),
  ("msg", "application/vnd.ms-outlook")
]

/-- `name.lastIndexOf('.') !== -1`: the name contains a dot. -/
def hasDot (name : String) : Bool := name.data.contains '.'

/-- `name.split('.').pop()`: the substring after the last dot, the whole name
when no dot occurs. -/
def lastDotComponent (name : String) : String :=
  String.mk ((name.data.reverse.takeWhile fun c => c != '.').reverse)

/-- `.toLowerCase()` character by character. -/
def lowerString (s : String) : String := String.mk (s.data.map Char.toLower)

/-- The source's `withMimeType`: when the name has an extension and the file
reports no type, infer the type from `COMMON_MIME_TYPES` (leaving the file
unchanged on a lookup miss). -/
def withMimeType (file : FileDesc) : FileDesc :=
  let name := file.name
  let hasExtension := !(decide (name = "")) && hasDot name
  if hasExtension && decide (file.type = "") then
    let ext := lowerString (lastDotComponent name)
    match (COMMON_MIME_TYPES.lookup ext) with
    | some ty => { file with type := ty }
    | none => file
  else
    file

/-- The source's `toFileWithPath(file, path?)`: infer a missing MIME type,
then, if `path` is not already a string on the file, set it to the supplied
path, else to a non-empty `webkitRelativePath`, else to the name. -/
def toFileWithPath (file : FileDesc) (path : Option String) : FileDesc :=
  let f := withMimeType file
  if f.path.isSome then
    f
  else
    { f with
      path := some (match path with
        | some p => p
        | none =>
          if f.webkitRelativePath.length > 0 then f.webkitRelativePath else f.name) }

/-- One validation error (`FileError` in the source). -/
structure FileError where
  code : String
  message : String
deriving DecidableEq, Repr

def FILE_INVALID_TYPE : String := "file-invalid-type"
def FILE_TOO_LARGE : String := "file-too-large"
def FILE_TOO_SMALL : String := "file-too-small"
def TOO_MANY_FILES : String := "too-many-files"

/-- `getInvalidTypeRejectionErr(accept)`: a one-element array collapses to its
element; an array renders as "one of a, b"; `undefined` interpolates as the
string "undefined" in the JS template literal. -/
def getInvalidTypeRejectionErr (accept : AcceptAttr) : FileError :=
  let messageSuffix :=
    match accept with
    | .arr l => if l.length = 1 then l.headD "" else "one of " ++ String.intercalate ", " l
    | .str s => s
    | .undef => "undefined"
  { code := FILE_INVALID_TYPE, message := "File type must be " ++ messageSuffix }

def getTooLargeRejectionErr (maxSize : Nat) : FileError :=
  { code := FILE_TOO_LARGE
    message := "File is larger than " ++ toString maxSize ++ " "
      ++ (if maxSize = 1 then "byte" else "bytes") }

def getTooSmallRejectionErr (minSize : Nat) : FileError :=
  { code := FILE_TOO_SMALL
    message := "File is smaller than " ++ toString minSize ++ " "
      ++ (if minSize = 1 then "byte" else "bytes") }

def TOO_MANY_FILES_REJECTION : FileError :=
  { code := TOO_MANY_FILES, message := "Too many files" }

/-- `fileAccepted(file, accept)`: the literal `application/x-moz-file` MIME
type short-circuits to accepted (legacy Firefox), otherwise defer to
`accepts`; on rejection produce the invalid-type error. -/
def fileAccepted (file : FileDesc) (accept : AcceptAttr) : Bool × Option FileError :=
  let isAcceptable := decide (file.type = "application/x-moz-file") || accepts file accept
  (isAcceptable, if isAcceptable then none else some (getInvalidTypeRejectionErr accept))

/-- `fileMatchSize(file, minSize, maxSize)`: with a known size and both bounds
defined the max bound is checked first; with one bound defined only that bound
is checked; with an unknown size the check passes with no error. -/
def fileMatchSize (file : FileDesc) (minSize maxSize : Option Nat) :
    Bool × Option FileError :=
  match file.size with
  | none => (true, none)
  | some sz =>
    match minSize, maxSize with
    | some mn, some mx =>
      if sz > mx then (false, some (getTooLargeRejectionErr mx))
      else if sz < mn then (false, some (getTooSmallRejectionErr mn))
      else (true, none)
    | some mn, none =>
      if sz < mn then (false, some (getTooSmallRejectionErr mn)) else (true, none)
    | none, some mx =>
      if sz > mx then (false, some (getTooLargeRejectionErr mx)) else (true, none)
    | none, none => (true, none)

/-- Result of the custom validator callback: JS `null`, a single `FileError`,
or an array of them. -/
inductive ValidatorResult where
  | null
  | single (e : FileError)
  | many (l : List FileError)

/-- JS truthiness of a validator result: `null` is falsy; an object or array
(even an empty array) is truthy. -/
def vrTruthy : ValidatorResult → Bool
  | .null => false
  | .single _ => true
  | .many _ => true

/-- The errors carried by a validator result when concatenated (JS
`Array.prototype.concat` treats a single object as a one-element addition). -/
def vrErrors : ValidatorResult → List FileError
  | .null => []
  | .single e => [e]
  | .many l => l

/-- `validator ? validator(file) : null`. -/
def runValidator (validator : Option (FileDesc → ValidatorResult))
    (file : FileDesc) : ValidatorResult :=
  match validator with
  | some v => v file
  | none => .null

/-- The configuration threaded through `allFilesAccepted` and `setFiles`
(props `accept`/`minSize`/`maxSize`/`multiple`/`maxFiles`/`validator`). -/
structure AcceptanceSpec where
  accept : AcceptAttr
  minSize : Option Nat
  maxSize : Option Nat
  multiple : Bool
  maxFiles : Nat
  validator : Option (FileDesc → ValidatorResult)

/-- The cardinality condition shared verbatim by `allFilesAccepted` and
`setFiles`: `(!multiple && count > 1) || (multiple && maxFiles >= 1 && count > maxFiles)`. -/
def cardinalityExceeded (multiple : Bool) (maxFiles count : Nat) : Bool :=
  (!multiple && decide (count > 1))
    || (multiple && decide (maxFiles ≥ 1) && decide (count > maxFiles))

/-- The per-file conjunction used by both `allFilesAccepted` and `setFiles`:
`accepted && sizeMatch && !customErrors`. -/
def passesAll (s : AcceptanceSpec) (file : FileDesc) : Bool :=
  (fileAccepted file s.accept).1
    && (fileMatchSize file s.minSize s.maxSize).1
    && !(vrTruthy (runValidator s.validator file))

/-- `allFilesAccepted({files, accept, minSize, maxSize, multiple, maxFiles, validator})`. -/
def allFilesAccepted (files : List FileDesc) (s : AcceptanceSpec) : Bool :=
  if cardinalityExceeded s.multiple s.maxFiles files.length then
    false
  else
    files.all (passesAll s)

/-- The rejection record pushed by `setFiles` for a file failing the per-file
checks: the non-null members of `[acceptError, sizeError]` followed by the
custom validator's errors when its result is truthy. -/
def rejectionFor (s : AcceptanceSpec) (file : FileDesc) : FileDesc × List FileError :=
  (file,
    ([(fileAccepted file s.accept).2, (fileMatchSize file s.minSize s.maxSize).2].filterMap id)
      ++ vrErrors (runValidator s.validator file))

/-- The pure partition performed by the source's `setFiles` callback before it
dispatches: per-file partition in input order, then the all-or-nothing
cardinality demotion of the accepted subset. -/
def setFiles (files : List FileDesc) (s : AcceptanceSpec) :
    List FileDesc × List (FileDesc × List FileError) :=
  let acceptedFiles := files.filter (passesAll s)
  let fileRejections := (files.filter (fun f => !(passesAll s f))).map (rejectionFor s)
  if cardinalityExceeded s.multiple s.maxFiles acceptedFiles.length then
    ([], fileRejections ++ acceptedFiles.map (fun f => (f, [TOO_MANY_FILES_REJECTION])))
  else
    (acceptedFiles, fileRejections)

/-- The drag-accept flag computed in `onDragEnterCb` after extraction:
`fileCount > 0 && allFilesAccepted({files, accept, minSize, maxSize, multiple, maxFiles, validator})`;
note the callback passes the custom validator into `allFilesAccepted`. -/
def dragEnterIsDragAccept (files : List FileDesc) (s : AcceptanceSpec) : Bool :=
  decide (files.length > 0) && allFilesAccepted files s

/-- Stated from the spec, for comparison with `allFilesAccepted`: the
drag-accept decision as the specification describes it for `dragenter`, using
only the type, size, and cardinality checks, with the custom validator not
consulted. -/
def allFilesAcceptedSpecNoValidator (files : List FileDesc) (s : AcceptanceSpec) : Bool :=
  if cardinalityExceeded s.multiple s.maxFiles files.length then
    false
  else
    files.all fun file =>
      (fileAccepted file s.accept).1 && (fileMatchSize file s.minSize s.maxSize).1

/-- The interaction state held by the reducer (`DropzoneState` fields managed
by `initialState` and `reducer` in the source).  A file rejection is rendered
as the pair of the file and its error list. -/
structure DropzoneState where
  isFocused : Bool
  isFileDialogActive : Bool
  isDragActive : Bool
  isDragAccept : Bool
  isDragReject : Bool
  acceptedFiles : List FileDesc
  fileRejections : List (FileDesc × List FileError)
deriving DecidableEq, Repr

/-- The source's `initialState`. -/
def initialState : DropzoneState :=
  { isFocused := false
    isFileDialogActive := false
    isDragActive := false
    isDragAccept := false
    isDragReject := false
    acceptedFiles := []
    fileRejections := [] }

/-- The reducer actions dispatched by the source (the `type` tag plus the
payload fields each case reads). -/
inductive DzAction where
  | focus
  | blur
  | openDialog
  | closeDialog
  | setDraggedFiles (isDragActive isDragAccept isDragReject : Bool)
  | setFilesAct (acceptedFiles : List FileDesc)
      (fileRejections : List (FileDesc × List FileError))
  | reset
deriving DecidableEq, Repr

/-- The source's `reducer(state, action)`. -/
def reducer (state : DropzoneState) (action : DzAction) : DropzoneState :=
  match action with
  | .focus => { state with isFocused := true }
  | .blur => { state with isFocused := false }
  | .openDialog => { initialState with isFileDialogActive := true }
  | .closeDialog => { state with isFileDialogActive := false }
  | .setDraggedFiles isDragActive isDragAccept isDragReject =>
    { state with
      isDragActive := isDragActive
      isDragAccept := isDragAccept
      isDragReject := isDragReject }
  | .setFilesAct acceptedFiles fileRejections =>
    { state with acceptedFiles := acceptedFiles, fileRejections := fileRejections }
  | .reset => initialState

/-- A `FileSystemEntry` as the source traverses it: a file entry resolving to
a `FileDesc` and carrying the entry's `fullPath`, or a directory entry whose
`readEntries` enumeration yields the given list of batches (the final empty
batch that signals completion is left implicit). -/
inductive FsEntry where
  | fileE (f : FileDesc) (fullPath : String)
  | dir (batches : List (List FsEntry))

/-- The `FileValue` shape accumulated by the drop-materialization path: a
resolved file or an arbitrarily nested array of values. -/
inductive FileValue where
  | fileV (f : FileDesc)
  | arr (l : List FileValue)

/-- The source's `fromFileEntry(entry)`: resolve the file and attach the
entry's `fullPath` via `toFileWithPath`. -/
def fromFileEntry (f : FileDesc) (fullPath : String) : FileDesc :=
  toFileWithPath f (some fullPath)

mutual

/-- The source's `fromEntry(entry)`: a directory delegates to `fromDirEntry`,
a file to `fromFileEntry`. -/
def fromEntry : FsEntry → FileValue
  | .fileE f fullPath => .fileV (fromFileEntry f fullPath)
  | .dir batches => .arr (fromDirEntry batches)

/-- The source's `fromDirEntry(entry)`: each `readEntries` batch is resolved
(each of its entries via `fromEntry`) and pushed as one array; the promise
resolves to the list of per-batch arrays in enumeration order. -/
def fromDirEntry : List (List FsEntry) → List FileValue
  | [] => []
  | batch :: rest => .arr (fromDirBatch batch) :: fromDirEntry rest

/-- One `readEntries` batch: `batch.map(fromEntry)`. -/
def fromDirBatch : List FsEntry → List FileValue
  | [] => []
  | e :: es => fromEntry e :: fromDirBatch es

end

/-- The source's `flatten(items)`: left-to-right concatenation, recursively
flattening any array element into its flat file list. -/
def flatten : List FileValue → List FileDesc
  | [] => []
  | .fileV f :: rest => f :: flatten rest
  | .arr l :: rest => flatten l ++ flatten rest

mutual

/-- The flat in-order enumeration of an entry tree, stated directly: a file
entry contributes its single resolved descriptor; a directory contributes the
concatenation of its batches' flat results in order. -/
def specFlat : FsEntry → List FileDesc
  | .fileE f fullPath => [fromFileEntry f fullPath]
  | .dir batches => specFlatBatches batches

def specFlatBatches : List (List FsEntry) → List FileDesc
  | [] => []
  | batch :: rest => specFlatBatch batch ++ specFlatBatches rest

def specFlatBatch : List FsEntry → List FileDesc
  | [] => []
  | e :: es => specFlat e ++ specFlatBatch es

end

/-- The source's `FILES_TO_IGNORE` junk-name list. -/
def FILES_TO_IGNORE : List String := [".DS_Store", "Thumbs.db"]

/-- The source's `noIgnoredFiles(files)`: keep the files whose name is not on
the ignore list (`indexOf === -1`). -/
def noIgnoredFiles (files : List FileDesc) : List FileDesc :=
  files.filter fun file => !(decide (file.name ∈ FILES_TO_IGNORE))

/-- The source's `getInputFiles(evt)` given the file list of the change
event's target input: map each file through `toFileWithPath` with no explicit
path — no junk-name filtering occurs on this path. -/
def getInputFiles (files : List FileDesc) : List FileDesc :=
  files.map fun file => toFileWithPath file none

/-- One `DataTransferItem`: its `kind`, the result of `webkitGetAsEntry`
(`none` when the function is absent or returns null), and the result of
`getAsFile` (`none` when it returns null). -/
structure DTItem where
  kind : String
  entry : Option FsEntry
  getAsFile : Option FileDesc

/-- `FsEntry.isDirectory`. -/
def FsEntry.isDirectory : FsEntry → Bool
  | .fileE _ _ => false
  | .dir _ => true

/-- The source's `fromDataTransferItem(item)`: `getAsFile()` returning null
rejects the promise (`none` here); otherwise resolve to the file with its
path attached. -/
def fromDataTransferItem (item : DTItem) : Option FileValue :=
  match item.getAsFile with
  | none => none
  | some file => some (.fileV (toFileWithPath file none))

/-- The source's `toFilePromises(item)`: a directory entry goes through
`fromDirEntry`; anything else (no entry access, a null entry, or a file
entry) goes through `fromDataTransferItem`. -/
def toFilePromises (item : DTItem) : Option FileValue :=
  match item.entry with
  | some e => if e.isDirectory then some (fromEntry e) else fromDataTransferItem item
  | none => fromDataTransferItem item

/-- A `DataTransfer`: an optional structured item list (IE11 has none) and
the flat `files` list. -/
structure DTModel where
  items : Option (List DTItem)
  files : List FileDesc

/-- The result of `getDataTransferFiles`: on `dragenter`/`dragover` the
unmaterialized items are returned verbatim; otherwise a flat file list. -/
inductive DTResult where
  | items (l : List DTItem)
  | files (l : List FileDesc)

/-- The source's `getDataTransferFiles(dt, type)`; `none` models a rejected
promise (some item failed to materialize). -/
def getDataTransferFiles (dt : DTModel) (type : String) : Option DTResult :=
  match dt.items with
  | some itemList =>
    let items := itemList.filter fun item => decide (item.kind = "file")
    if type ≠ "drop" then
      some (.items items)
    else
      (items.mapM toFilePromises).map fun vals => .files (noIgnoredFiles (flatten vals))
  | none =>
    some (.files (noIgnoredFiles (dt.files.map fun file => toFileWithPath file none)))

/-- A concrete file shape used by the instance theorems below. -/
def mkFile (n ty : String) (sz : Option Nat) : FileDesc :=
  { name := n, type := ty, size := sz, path := none, webkitRelativePath := "" }

theorem cardinalityExceeded_le_one (m : Bool) (k c : Nat) (hc : c ≤ 1) :
    cardinalityExceeded m k c = false := by
  cases m <;> simp [cardinalityExceeded] <;> omega

theorem cardinalityExceeded_eq_true_iff (m : Bool) (k c : Nat) :
    cardinalityExceeded m k c = true
      ↔ ((m = false ∧ 1 < c) ∨ (m = true ∧ 1 ≤ k ∧ k < c)) := by
  cases m <;> simp [cardinalityExceeded]

theorem rejectionFor_fst (s : AcceptanceSpec) (f : FileDesc) :
    (rejectionFor s f).1 = f := rfl

theorem passesAll_eq_true_iff (s : AcceptanceSpec) (f : FileDesc) :
    passesAll s f = true
      ↔ ((fileAccepted f s.accept).1 = true
          ∧ (fileMatchSize f s.minSize s.maxSize).1 = true
          ∧ vrTruthy (runValidator s.validator f) = false) := by
  simp [passesAll, Bool.and_eq_true, Bool.not_eq_true', and_assoc]

theorem toFileWithPath_name (f : FileDesc) (p : Option String) :
    (toFileWithPath f p).name = f.name := by
  have hw : (withMimeType f).name = f.name := by
    unfold withMimeType
    dsimp only
    split
    · split <;> rfl
    · rfl
  unfold toFileWithPath
  dsimp only
  by_cases h : (withMimeType f).path.isSome <;> simp [h, hw]

theorem mem_noIgnoredFiles (g : FileDesc) (l : List FileDesc)
    (h : g ∈ noIgnoredFiles l) : g.name ∉ FILES_TO_IGNORE := by
  simp [noIgnoredFiles, List.mem_filter] at h
  exact h.2

theorem flatten_cons (v : FileValue) (rest : List FileValue) :
    flatten (v :: rest) = flatten [v] ++ flatten rest := by
  cases v <;> simp [flatten]

mutual

theorem flatten_fromEntry (e : FsEntry) : flatten [fromEntry e] = specFlat e := by
  cases e with
  | fileE f fullPath => simp [fromEntry, flatten, specFlat]
  | dir batches =>
    have h := flatten_fromDirEntry batches
    simp [fromEntry, flatten, specFlat, h]

theorem flatten_fromDirEntry (bs : List (List FsEntry)) :
    flatten (fromDirEntry bs) = specFlatBatches bs := by
  cases bs with
  | nil => simp [fromDirEntry, flatten, specFlatBatches]
  | cons batch rest =>
    have h1 := flatten_fromDirBatch batch
    have h2 := flatten_fromDirEntry rest
    simp [fromDirEntry, flatten, specFlatBatches, h1, h2]

theorem flatten_fromDirBatch (b : List FsEntry) :
    flatten (fromDirBatch b) = specFlatBatch b := by
  cases b with
  | nil => simp [fromDirBatch, flatten, specFlatBatch]
  | cons e es =>
    have h1 := flatten_fromEntry e
    have h2 := flatten_fromDirBatch es
    rw [fromDirBatch, flatten_cons, h1, h2, specFlatBatch]

end

/-- A permissive configuration (no type, size, or count limits, no validator),
used in the instance theorems. -/
def openSpec : AcceptanceSpec :=
  { accept := .undef, minSize := none, maxSize := none, multiple := true, maxFiles := 0,
    validator := none }

/-- C4: for a file with a known size, when both bounds are set and both are
violated (size above max and below min), the size check reports the too-large
error and never the too-small one; for a file with an unknown size the check
returns true with no error. -/
theorem fileMatchSize_max_precedence :
    (∀ (file : FileDesc) (mn mx sz : Nat), file.size = some sz → mx < sz → sz < mn →
      fileMatchSize file (some mn) (some mx) = (false, some (getTooLargeRejectionErr mx))) ∧
    (∀ (file : FileDesc) (mn mx : Option Nat), file.size = none →
      fileMatchSize file mn mx = (true, none)) := by
  constructor
  · intro file mn mx sz hsz hmx _
    simp [fileMatchSize, hsz, hmx]
  · intro file mn mx h
    simp [fileMatchSize, h]

/-- Witness for C4 at size 100, minSize 200, maxSize 10, and at an unknown
size. -/
theorem fileMatchSize_max_precedence_witness :
    fileMatchSize (mkFile "a" "" (some 100)) (some 200) (some 10)
      = (false, some (getTooLargeRejectionErr 10)) ∧
    fileMatchSize (mkFile "a" "" none) (some 200) (some 10) = (true, none) :=
  ⟨fileMatchSize_max_precedence.1 _ 200 10 100 rfl (by decide) (by decide),
   fileMatchSize_max_precedence.2 _ (some 200) (some 10) rfl⟩

/-- C7: a file whose reported MIME type is the literal
`application/x-moz-file` passes the type check for every accepted-types
configuration, producing no invalid-type error. -/
theorem fileAccepted_moz_always (f : FileDesc) (a : AcceptAttr)
    (h : f.type = "application/x-moz-file") : fileAccepted f a = (true, none) := by
  simp [fileAccepted, h]

/-- Witness for C7 with an accepted-types list that does not contain the
moz-file type. -/
theorem fileAccepted_moz_always_witness :
    fileAccepted (mkFile "x" "application/x-moz-file" (some 1)) (.arr ["image/png"])
      = (true, none) :=
  fileAccepted_moz_always _ _ rfl

/-- C8: the `closeDialog` transition sets `isFileDialogActive` to false and
leaves every other field of the state unchanged. -/
theorem reducer_closeDialog_frame (s : DropzoneState) :
    (reducer s .closeDialog).isFileDialogActive = false ∧
    (reducer s .closeDialog).isFocused = s.isFocused ∧
    (reducer s .closeDialog).isDragActive = s.isDragActive ∧
    (reducer s .closeDialog).isDragAccept = s.isDragAccept ∧
    (reducer s .closeDialog).isDragReject = s.isDragReject ∧
    (reducer s .closeDialog).acceptedFiles = s.acceptedFiles ∧
    (reducer s .closeDialog).fileRejections = s.fileRejections := by
  simp [reducer]

/-- C9: for a file without the moz-file carve-out, an empty (but present)
accepted-types array rejects it, while an absent accepted-types value accepts
it. -/
theorem accepts_empty_array_rejects (f : FileDesc)
    (h : f.type ≠ "application/x-moz-file") :
    accepts f (.arr []) = false ∧ accepts f .undef = true := by
  constructor
  · simp [accepts, acceptTruthy, acceptList]
  · simp [accepts, acceptTruthy]

/-- Witness for C9 at a PNG file. -/
theorem accepts_empty_array_rejects_witness :
    accepts (mkFile "a.png" "image/png" (some 1)) (.arr []) = false ∧
    accepts (mkFile "a.png" "image/png" (some 1)) .undef = true :=
  accepts_empty_array_rejects _ (by decide)

def c1File : FileDesc := mkFile "a.txt" "text/plain" (some 5)

/-- A configuration whose only restriction is a custom validator that rejects
every file. -/
def c1Spec : AcceptanceSpec :=
  { accept := .undef, minSize := none, maxSize := none, multiple := true, maxFiles := 0,
    validator := some (fun _ => .single { code := "custom", message := "nope" }) }

/-- C1 counterexample: for a file passing the type, size, and cardinality
checks but rejected by the custom validator, the dragenter probe computed by
`onDragEnterCb` decides drag-reject, while the type/size/cardinality-only
decision described by the spec would be drag-accept — so the custom validator
IS consulted at the drag stage. -/
theorem dragEnter_validator_consulted_cex :
    dragEnterIsDragAccept [c1File] c1Spec = false ∧
    allFilesAcceptedSpecNoValidator [c1File] c1Spec = true := by
  constructor <;> rfl

/-- C1 amended: the drag-accept decision applied via the drag probe on
dragenter is computed from the cardinality check and, per file, the type
check, the size check, AND the custom validator (`onDragEnterCb` passes
`validator` into `allFilesAccepted`). -/
theorem dragEnter_probe_uses_all_checks (files : List FileDesc) (s : AcceptanceSpec) :
    dragEnterIsDragAccept files s
      = (decide (files.length > 0)
          && !(cardinalityExceeded s.multiple s.maxFiles files.length)
          && files.all fun f =>
              (fileAccepted f s.accept).1 && (fileMatchSize f s.minSize s.maxSize).1
                && !(vrTruthy (runValidator s.validator f))) := by
  have hp : passesAll s = fun f =>
      (fileAccepted f s.accept).1 && (fileMatchSize f s.minSize s.maxSize).1
        && !(vrTruthy (runValidator s.validator f)) := by
    funext f; rfl
  unfold dragEnterIsDragAccept allFilesAccepted
  rw [hp]
  cases h : cardinalityExceeded s.multiple s.maxFiles files.length <;> simp [h]

/-- C6: a singleton batch is accepted exactly when the file passes the type
check, the size check, and the custom validator; the cardinality demotion
never fires on one file. -/
theorem setFiles_singleton_accepted_iff (f : FileDesc) (s : AcceptanceSpec) :
    (setFiles [f] s).1 ≠ [] ↔
      ((fileAccepted f s.accept).1 = true
        ∧ (fileMatchSize f s.minSize s.maxSize).1 = true
        ∧ vrTruthy (runValidator s.validator f) = false) := by
  rw [← passesAll_eq_true_iff]
  unfold setFiles
  cases hp : passesAll s f with
  | false =>
    simp [List.filter_cons, List.filter_nil, hp, cardinalityExceeded_le_one]
  | true =>
    simp [List.filter_cons, List.filter_nil, hp, cardinalityExceeded_le_one]

/-- Witness for C6: a permissive configuration accepts a singleton batch. -/
theorem setFiles_singleton_accepted_iff_witness :
    (setFiles [mkFile "a.png" "image/png" (some 10)] openSpec).1 ≠ [] :=
  (setFiles_singleton_accepted_iff _ openSpec).mpr (by decide)

/-- C2: when the accepted subset alone violates cardinality (more than one
file with multiple=false, or more than maxFiles files with multiple=true and
maxFiles at least 1), every member of the accepted subset is moved into the
rejection list with the single too-many-files error, and the accepted list
ends empty. -/
theorem setFiles_cardinality_all_or_nothing (files : List FileDesc) (s : AcceptanceSpec)
    (h : (s.multiple = false ∧ 1 < (files.filter (passesAll s)).length)
      ∨ (s.multiple = true ∧ 1 ≤ s.maxFiles
          ∧ s.maxFiles < (files.filter (passesAll s)).length)) :
    (setFiles files s).1 = [] ∧
    (setFiles files s).2
      = (files.filter fun f => !(passesAll s f)).map (rejectionFor s)
        ++ (files.filter (passesAll s)).map (fun f => (f, [TOO_MANY_FILES_REJECTION])) := by
  rw [← cardinalityExceeded_eq_true_iff s.multiple s.maxFiles] at h
  simp [setFiles, h]

/-- A configuration with multiple=true and maxFiles=2, and a batch of three
otherwise-valid files, as in the spec's all-or-nothing example. -/
def specMax2 : AcceptanceSpec :=
  { accept := .undef, minSize := none, maxSize := none, multiple := true, maxFiles := 2,
    validator := none }

def threeFiles : List FileDesc :=
  [mkFile "a" "" (some 1), mkFile "b" "" (some 1), mkFile "c" "" (some 1)]

/-- Witness for C2: three valid files against maxFiles=2 all land in the
rejections with the too-many-files error and the accepted list is empty. -/
theorem setFiles_cardinality_all_or_nothing_witness :
    (setFiles threeFiles specMax2).1 = [] ∧
    (setFiles threeFiles specMax2).2
      = (threeFiles.filter fun f => !(passesAll specMax2 f)).map (rejectionFor specMax2)
        ++ (threeFiles.filter (passesAll specMax2)).map
            (fun f => (f, [TOO_MANY_FILES_REJECTION])) :=
  setFiles_cardinality_all_or_nothing threeFiles specMax2 (by decide)

/-- C3: for any batch, the accepted list and the files referenced in the
rejection list are disjoint, and every file of the batch lands in exactly one
of the two (and nothing else does). -/
theorem setFiles_partition_exact (files : List FileDesc) (s : AcceptanceSpec)
    (f : FileDesc) :
    ¬(f ∈ (setFiles files s).1 ∧ f ∈ (setFiles files s).2.map Prod.fst) ∧
    (f ∈ files ↔ f ∈ (setFiles files s).1 ∨ f ∈ (setFiles files s).2.map Prod.fst) := by
  unfold setFiles
  by_cases hcond :
      cardinalityExceeded s.multiple s.maxFiles (files.filter (passesAll s)).length = true
  · rw [if_pos hcond]
    refine ⟨by simp, ?_⟩
    by_cases hp : passesAll s f = true <;>
      simp [List.mem_filter, List.mem_append, List.map_append, List.map_map,
        Function.comp_def, rejectionFor_fst, hp, List.mem_map]
  · rw [if_neg hcond]
    refine ⟨?_, ?_⟩
    · rintro ⟨h1, h2⟩
      simp only [List.mem_filter] at h1
      simp only [List.mem_map, List.mem_filter] at h2
      rcases h2 with ⟨g, ⟨hg, ⟨hgmem, hgnp⟩, hge⟩, hgf⟩
      rw [← hge, rejectionFor_fst] at hgf
      rw [hgf, h1.2] at hgnp
      simp at hgnp
    · by_cases hp : passesAll s f = true <;>
        simp [List.mem_filter, List.mem_map, Function.comp_def, rejectionFor_fst, hp]

/-- Witness for C3 at a concrete two-file batch with one rejected file. -/
theorem setFiles_partition_exact_witness :
    ¬(mkFile "a.png" "image/png" (some 1) ∈ (setFiles [mkFile "a.png" "image/png" (some 1),
        mkFile "b.txt" "text/plain" (some 1)]
        { accept := .arr ["image/png"], minSize := none, maxSize := none, multiple := true,
          maxFiles := 0, validator := none }).1
      ∧ mkFile "a.png" "image/png" (some 1) ∈ (setFiles [mkFile "a.png" "image/png" (some 1),
        mkFile "b.txt" "text/plain" (some 1)]
        { accept := .arr ["image/png"], minSize := none, maxSize := none, multiple := true,
          maxFiles := 0, validator := none }).2.map Prod.fst) :=
  (setFiles_partition_exact _ _ _).1

def aFile : FileDesc := mkFile "a.txt" "text/plain" (some 1)

def bFile : FileDesc := mkFile "b.txt" "text/plain" (some 1)

/-- A dropped directory holding one file at depth 0 and one file at depth 2
(two nested sub-directories down), with the browser-supplied full paths. -/
def depthExample : FsEntry :=
  .dir [[.fileE aFile "/root/a.txt",
         .dir [[.dir [[.fileE bFile "/root/s1/s2/b.txt"]]]]]]

/-- C5: materializing a dropped directory entry and flattening (the drop
path's `flatten` applied to `fromDirEntry`'s per-batch arrays) yields exactly
the in-order flat concatenation of all enumeration batches, with no nesting
left, for every entry tree; on the depth example the result is exactly the
two file descriptors, the depth-2 one carrying its full relative path. -/
theorem dirExtraction_flattens :
    (∀ e : FsEntry, flatten [fromEntry e] = specFlat e) ∧
    flatten [fromEntry depthExample]
      = [fromFileEntry aFile "/root/a.txt", fromFileEntry bFile "/root/s1/s2/b.txt"] ∧
    (fromFileEntry bFile "/root/s1/s2/b.txt").path = some "/root/s1/s2/b.txt" := by
  refine ⟨flatten_fromEntry, ?_, ?_⟩
  · rw [flatten_fromEntry]
    simp [depthExample, specFlat, specFlatBatches, specFlatBatch]
  · decide

def dsFile : FileDesc := mkFile ".DS_Store" "" (some 1)

/-- C10: the junk-name ignore list applies only to the drag data-transfer
extraction: the input-change path maps every selected file straight through
(so a `.DS_Store` chosen via the file dialog appears in the output, name
intact), while every file produced by the drop materialization path has a
name off the ignore list. -/
theorem junk_filter_drag_only (files : List FileDesc) (dt : DTModel) (f : FileDesc)
    (res : List FileDesc) :
    (f ∈ files → toFileWithPath f none ∈ getInputFiles files
      ∧ (toFileWithPath f none).name = f.name) ∧
    (getDataTransferFiles dt "drop" = some (.files res) →
      ∀ g ∈ res, g.name ∉ FILES_TO_IGNORE) := by
  constructor
  · intro hf
    exact ⟨List.mem_map_of_mem _ hf, toFileWithPath_name f none⟩
  · intro h g hg
    unfold getDataTransferFiles at h
    cases hitems : dt.items with
    | none =>
      rw [hitems] at h
      simp only [Option.some.injEq, DTResult.files.injEq] at h
      rw [← h] at hg
      exact mem_noIgnoredFiles g _ hg
    | some itemList =>
      rw [hitems] at h
      dsimp only at h
      rw [if_neg (fun hcontra => hcontra rfl)] at h
      cases hm : (itemList.filter fun item => decide (item.kind = "file")).mapM toFilePromises with
      | none =>
        rw [hm] at h
        dsimp only [Option.map] at h
        exact Option.noConfusion h
      | some vals =>
        rw [hm] at h
        dsimp only [Option.map] at h
        injection h with h1
        injection h1 with h2
        rw [← h2] at hg
        exact mem_noIgnoredFiles g _ hg

/-- A drop payload without a structured item list (the flat `files` path),
holding a junk `.DS_Store` file and a normal PNG file. -/
def dtWitness : DTModel :=
  { items := none, files := [dsFile, mkFile "a.png" "image/png" (some 1)] }

/-- Witness for C10: through the input path the `.DS_Store` file survives;
through the drop path the extraction result contains no ignored names. -/
theorem junk_filter_drag_only_witness :
    (toFileWithPath dsFile none ∈ getInputFiles [dsFile]
      ∧ (toFileWithPath dsFile none).name = dsFile.name) ∧
    (∀ g ∈ [toFileWithPath (mkFile "a.png" "image/png" (some 1)) none],
      g.name ∉ FILES_TO_IGNORE) :=
  ⟨(junk_filter_drag_only [dsFile] dtWitness dsFile
      [toFileWithPath (mkFile "a.png" "image/png" (some 1)) none]).1 (by decide),
   (junk_filter_drag_only [dsFile] dtWitness dsFile
      [toFileWithPath (mkFile "a.png" "image/png" (some 1)) none]).2 rfl⟩
